import Mathlib

/- Shallow embedding of the repository `synthetic-llm-medical-text`
   (src/enhance_prompt.py and src/generate_note.py) together with proofs
   about its behaviour.  Python strings are modelled as lists of
   characters, a pandas DataFrame as an association list from column
   names to columns of optional strings (`none` models a NaN/None cell),
   and Python exceptions as `Except` errors. -/

namespace SynthMed

/-- Python strings, modelled as lists of characters. -/
abbrev Str := List Char

/-- Coerce a Lean string literal into the character-list model. -/
def strL (s : String) : Str := s.data

/-- The ASCII characters Python's `str.split()` / `str.strip()` treat as
    whitespace. -/
def pyIsSpace (c : Char) : Bool :=
  c = ' ' || c = '\t' || c = '\n' || c = '\r' || c = '\x0b' || c = '\x0c'

/-- Python exceptions raised by the embedded code. -/
inductive PyError where
  | keyError : PyError
  | indexError : PyError
deriving DecidableEq

/-- A pandas DataFrame, restricted to what the code reads: named columns
    of optional strings.  `none` models a NaN/None cell. -/
abbrev DataFrame := List (Str × List (Option Str))

/-- Model of `df[col]`: the named column, or `none` when absent (in which case
    pandas raises a `KeyError`). -/
def getCol (df : DataFrame) (col : Str) : Option (List (Option Str)) :=
  (df.find? (fun p => p.1 = col)).map Prod.snd

/-- Python `str.split()` with no separator: split on runs of whitespace,
    dropping empty pieces.  `cur` holds the current word, reversed. -/
def splitWSAux (cur : Str) : Str → List Str
  | [] => if cur = [] then [] else [cur.reverse]
  | c :: cs =>
    if pyIsSpace c then
      if cur = [] then splitWSAux [] cs else cur.reverse :: splitWSAux [] cs
    else splitWSAux (c :: cur) cs

/-- Python `s.split()` (no separator argument). -/
def pySplitWS (s : Str) : List Str := splitWSAux [] s

/-- Python `' '.join(l)`. -/
def joinSpace : List Str → Str
  | [] => []
  | [s] => s
  | s :: rest => s ++ ' ' :: joinSpace rest

/-- The keys of `collections.Counter(ws)` in insertion order, i.e. the
    distinct elements of `ws` in first-occurrence order. -/
def counterKeysAux (seen : List Str) : List Str → List Str
  | [] => []
  | w :: ws =>
    if w ∈ seen then counterKeysAux seen ws
    else w :: counterKeysAux (w :: seen) ws

/-- Distinct elements of `ws`, in first-occurrence order. -/
def counterKeys (ws : List Str) : List Str := counterKeysAux [] ws

/-- Model of `collections.Counter(ws)` as an ordered association list (keys in
    first-occurrence order, each with its occurrence count). -/
def counter (ws : List Str) : List (Str × Nat) :=
  (counterKeys ws).map (fun w => (w, ws.count w))

/-- The order realised by `Counter.most_common`: Python's sort is stable,
    so after tagging each entry with its insertion index the result is
    sorted by strictly greater count, or equal count and smaller index. -/
def mcLE (a b : Nat × Str × Nat) : Prop :=
  b.2.2 < a.2.2 ∨ (a.2.2 = b.2.2 ∧ a.1 ≤ b.1)

instance : DecidableRel mcLE := fun a b => by
  unfold mcLE; infer_instance

instance : IsTotal (Nat × Str × Nat) mcLE :=
  ⟨fun a b => by
    unfold mcLE
    rcases Nat.lt_trichotomy a.2.2 b.2.2 with h | h | h
    · exact Or.inr (Or.inl h)
    · rcases Nat.le_total a.1 b.1 with h' | h'
      · exact Or.inl (Or.inr ⟨h, h'⟩)
      · exact Or.inr (Or.inr ⟨h.symm, h'⟩)
    · exact Or.inl (Or.inl h)⟩

instance : IsTrans (Nat × Str × Nat) mcLE :=
  ⟨fun a b c hab hbc => by
    unfold mcLE at *
    rcases hab with h1 | ⟨h1, h1'⟩ <;> rcases hbc with h2 | ⟨h2, h2'⟩ <;>
      [exact Or.inl (h2.trans h1); exact Or.inl (h2 ▸ h1);
       exact Or.inl (h1 ▸ h2); exact Or.inr ⟨h1.trans h2, h1'.trans h2'⟩]⟩

/-- Model of `Counter(ws).most_common(n)`: entries sorted by descending count with
    ties kept in insertion (first-occurrence) order, truncated to `n`. -/
def mostCommon (n : Nat) (ws : List Str) : List (Str × Nat) :=
  ((List.insertionSort mcLE (counter ws).enum).take n).map Prod.snd

/-- The vocabulary statistics returned by `analyze_vocabulary`. -/
structure VocabStats where
  vocabulary_size : Nat
  avg_word_length : Option ℚ
  common_words : List (Str × Nat)
deriving DecidableEq

/-- The token list `analyze_vocabulary` derives from a column of texts:
    `' '.join(df[text_col].fillna('')).split()`. -/
def tokensOf (colVals : List (Option Str)) : List Str :=
  pySplitWS (joinSpace (colVals.map (fun o => o.getD [])))

/-- Model of `analyze_vocabulary(df, text_col)` (src/enhance_prompt.py).  Raises a
    `KeyError` when the column is absent; otherwise joins the texts after
    `fillna('')` with single spaces, splits on whitespace and computes the
    vocabulary statistics.  `avg_word_length` is `none` (NaN) for an empty
    token list, as `np.mean([])` is NaN. -/
def analyze_vocabulary (df : DataFrame) (text_col : Str) :
    Except PyError VocabStats :=
  match getCol df text_col with
  | none => .error .keyError
  | some colVals =>
    let words := tokensOf colVals
    .ok
      { vocabulary_size := (counterKeys words).length
        avg_word_length :=
          if words = [] then none
          else some ((words.map (fun w => (w.length : ℚ))).sum / words.length)
        common_words := mostCommon 50 words }

/-! Properties of the distinct-keys extraction -/

theorem counterKeysAux_sublist (seen : List Str) :
    ∀ ws, List.Sublist (counterKeysAux seen ws) ws := by
  intro ws
  induction ws generalizing seen with
  | nil => simp [counterKeysAux]
  | cons w ws ih =>
    by_cases h : w ∈ seen
    · simp only [counterKeysAux, if_pos h]
      exact (ih seen).trans (List.sublist_cons_self w ws)
    · simp only [counterKeysAux, if_neg h]
      exact (ih (w :: seen)).cons₂ w

theorem mem_counterKeysAux {seen : List Str} {w : Str} :
    ∀ {ws}, w ∈ counterKeysAux seen ws ↔ w ∈ ws ∧ w ∉ seen := by
  intro ws
  induction ws generalizing seen with
  | nil => simp [counterKeysAux]
  | cons v ws ih =>
    by_cases h : v ∈ seen
    · simp only [counterKeysAux, if_pos h, ih, List.mem_cons]
      constructor
      · rintro ⟨hw, hs⟩
        exact ⟨Or.inr hw, hs⟩
      · rintro ⟨hw | hw, hs⟩
        · exact absurd (hw ▸ h) hs
        · exact ⟨hw, hs⟩
    · simp only [counterKeysAux, if_neg h, List.mem_cons, ih, List.mem_cons]
      constructor
      · rintro (rfl | ⟨hw, hs⟩)
        · exact ⟨Or.inl rfl, h⟩
        · exact ⟨Or.inr hw, fun hx => hs (Or.inr hx)⟩
      · rintro ⟨rfl | hw, hs⟩
        · exact Or.inl rfl
        · by_cases hvw : w = v
          · exact Or.inl hvw
          · exact Or.inr ⟨hw, by simp [hs, hvw]⟩

theorem nodup_counterKeysAux (seen : List Str) :
    ∀ ws, (counterKeysAux seen ws).Nodup := by
  intro ws
  induction ws generalizing seen with
  | nil => simp [counterKeysAux]
  | cons w ws ih =>
    by_cases h : w ∈ seen
    · simpa only [counterKeysAux, if_pos h] using ih seen
    · simp only [counterKeysAux, if_neg h, List.nodup_cons]
      refine ⟨fun hmem => ?_, ih (w :: seen)⟩
      exact (mem_counterKeysAux.mp hmem).2 (List.mem_cons_self w seen)

theorem nodup_counterKeys (ws : List Str) : (counterKeys ws).Nodup :=
  nodup_counterKeysAux [] ws

theorem mem_counterKeys {w : Str} {ws : List Str} :
    w ∈ counterKeys ws ↔ w ∈ ws := by
  simp [counterKeys, mem_counterKeysAux]

/-- The number of distinct Counter keys is the number of distinct tokens. -/
theorem length_counterKeys_eq_card (ws : List Str) :
    (counterKeys ws).length = ws.toFinset.card := by
  have h1 : (counterKeys ws).toFinset = ws.toFinset := by
    ext w
    simp [List.mem_toFinset, mem_counterKeys]
  rw [← h1, List.toFinset_card_of_nodup (nodup_counterKeys ws)]

theorem length_counterKeys_le (ws : List Str) :
    (counterKeys ws).length ≤ ws.length :=
  (counterKeysAux_sublist [] ws).length_le

/-- C1: `analyze_vocabulary` on a present column returns the number of
    distinct tokens as `vocabulary_size`, the mean character length over all
    token occurrences as `avg_word_length`, and `vocabulary_size` never
    exceeds the total number of token occurrences. -/
theorem analyze_vocabulary_spec (df : DataFrame) (text_col : Str)
    (colVals : List (Option Str)) (hcol : getCol df text_col = some colVals) :
    ∃ v, analyze_vocabulary df text_col = .ok v ∧
      v.vocabulary_size = (tokensOf colVals).toFinset.card ∧
      (tokensOf colVals ≠ [] →
        v.avg_word_length =
          some (((tokensOf colVals).map (fun w => (w.length : ℚ))).sum /
            (tokensOf colVals).length)) ∧
      v.vocabulary_size ≤ (tokensOf colVals).length := by
  refine ⟨{ vocabulary_size := (counterKeys (tokensOf colVals)).length,
            avg_word_length := if tokensOf colVals = [] then none
              else some (((tokensOf colVals).map (fun w => (w.length : ℚ))).sum /
                (tokensOf colVals).length),
            common_words := mostCommon 50 (tokensOf colVals) }, ?_, ?_, ?_, ?_⟩
  · unfold analyze_vocabulary
    rw [hcol]
  · exact length_counterKeys_eq_card _
  · intro hne
    dsimp only
    rw [if_neg hne]
  · exact length_counterKeys_le _

/-- Witness for `analyze_vocabulary_spec` at a concrete corpus: two rows
    `"a b"` and `"b c"`, giving four token occurrences and three distinct
    tokens. -/
theorem analyze_vocabulary_spec_witness :
    ∃ v, analyze_vocabulary
        [(strL "note", [some (strL "a b"), some (strL "b c")])] (strL "note") =
        .ok v ∧
      v.vocabulary_size =
        (tokensOf [some (strL "a b"), some (strL "b c")]).toFinset.card ∧
      (tokensOf [some (strL "a b"), some (strL "b c")] ≠ [] →
        v.avg_word_length =
          some (((tokensOf [some (strL "a b"), some (strL "b c")]).map
              (fun w => (w.length : ℚ))).sum /
            (tokensOf [some (strL "a b"), some (strL "b c")]).length)) ∧
      v.vocabulary_size ≤ (tokensOf [some (strL "a b"), some (strL "b c")]).length :=
  analyze_vocabulary_spec
    [(strL "note", [some (strL "a b"), some (strL "b c")])] (strL "note")
    [some (strL "a b"), some (strL "b c")] (by decide)

/-! Properties of the most-common selection -/

/-- Token `x` first occurs strictly before `y` does in the token stream `ws`
    (both being distinct tokens of `ws`). -/
def firstOccursBefore (ws : List Str) (x y : Str) : Prop :=
  ∃ i j : ℕ, i < j ∧
    (counterKeys ws)[i]? = some x ∧ (counterKeys ws)[j]? = some y

theorem counter_getElem? (ws : List Str) (i : ℕ) :
    (counter ws)[i]? = ((counterKeys ws)[i]?).map (fun w => (w, ws.count w)) := by
  simp [counter, List.getElem?_map]

theorem mostCommon_length_le (n : Nat) (ws : List Str) :
    (mostCommon n ws).length ≤ n := by
  simp only [mostCommon, List.length_map, List.length_take]
  omega

/-- The entries of `most_common` are ordered by strictly descending count,
    with ties between equal counts broken by first occurrence. -/
theorem mostCommon_pairwise (n : Nat) (ws : List Str) :
    List.Pairwise (fun a b : Str × Nat =>
        b.2 < a.2 ∨ (a.2 = b.2 ∧ firstOccursBefore ws a.1 b.1))
      (mostCommon n ws) := by
  unfold mostCommon
  rw [List.pairwise_map]
  have hsorted : List.Pairwise mcLE (List.insertionSort mcLE (counter ws).enum) :=
    List.sorted_insertionSort mcLE _
  have hperm := List.perm_insertionSort mcLE (counter ws).enum
  have hnodupE : (counter ws).enum.Nodup := (List.nodup_enum_map_fst _).of_map
  have hnodupS : (List.insertionSort mcLE (counter ws).enum).Nodup :=
    hperm.nodup_iff.mpr hnodupE
  have hpw := hsorted.and hnodupS
  have hpt := List.Pairwise.sublist (List.take_sublist n _) hpw
  refine hpt.imp_of_mem ?_
  rintro ⟨ia, pa⟩ ⟨ib, pb⟩ ha hb ⟨hle, hne⟩
  have hmema : (ia, pa) ∈ (counter ws).enum :=
    hperm.mem_iff.mp ((List.take_sublist n _).mem ha)
  have hmemb : (ib, pb) ∈ (counter ws).enum :=
    hperm.mem_iff.mp ((List.take_sublist n _).mem hb)
  have hga : (counter ws)[ia]? = some pa := List.mk_mem_enum_iff_getElem?.mp hmema
  have hgb : (counter ws)[ib]? = some pb := List.mk_mem_enum_iff_getElem?.mp hmemb
  rcases hle with hlt | ⟨heq, hij⟩
  · exact Or.inl hlt
  · have hij' : ia < ib := by
      rcases Nat.lt_or_ge ia ib with h | h
      · exact h
      · have : ib = ia := by omega
        subst this
        rw [hga] at hgb
        exact absurd (by rw [Option.some.injEq] at hgb; rw [hgb]) hne
    rw [counter_getElem? ws ia] at hga
    rw [counter_getElem? ws ib] at hgb
    rcases Option.map_eq_some'.mp hga with ⟨wa, hwa, hpa⟩
    rcases Option.map_eq_some'.mp hgb with ⟨wb, hwb, hpb⟩
    refine Or.inr ⟨heq, ia, ib, hij', ?_, ?_⟩
    · rw [hwa, ← hpa]
    · rw [hwb, ← hpb]

/-- Every Counter entry is either listed in `most_common` or has a count no
    greater than every listed entry: `most_common` lists the most frequent
    tokens. -/
theorem mostCommon_most_frequent (n : Nat) (ws : List Str) :
    ∀ p ∈ counter ws, p ∈ mostCommon n ws ∨ ∀ q ∈ mostCommon n ws, p.2 ≤ q.2 := by
  intro p hp
  obtain ⟨i, hi⟩ := List.mem_iff_getElem?.mp hp
  have hmemE : (i, p) ∈ (counter ws).enum := List.mk_mem_enum_iff_getElem?.mpr hi
  have hperm := List.perm_insertionSort mcLE (counter ws).enum
  have hmemS : (i, p) ∈ List.insertionSort mcLE (counter ws).enum :=
    hperm.mem_iff.mpr hmemE
  rw [← List.take_append_drop n (List.insertionSort mcLE (counter ws).enum)]
    at hmemS
  rcases List.mem_append.mp hmemS with h | h
  · exact Or.inl (List.mem_map_of_mem Prod.snd h)
  · right
    intro q hq
    obtain ⟨⟨j, q'⟩, hq', rfl⟩ := List.mem_map.mp hq
    have hrel : mcLE (j, q') (i, p) :=
      List.Pairwise.rel_of_mem_take_of_mem_drop
        (List.sorted_insertionSort mcLE ((counter ws).enum)) hq' h
    rcases hrel with h' | ⟨h', _⟩
    · exact le_of_lt h'
    · exact le_of_eq h'.symm

/-- C2: the `common_words` of `analyze_vocabulary` has at most 50 entries,
    is ordered by descending count with ties broken by first occurrence,
    and lists the most frequent tokens. -/
theorem common_words_spec (df : DataFrame) (text_col : Str)
    (colVals : List (Option Str)) (hcol : getCol df text_col = some colVals) :
    ∃ v, analyze_vocabulary df text_col = .ok v ∧
      v.common_words.length ≤ 50 ∧
      List.Pairwise (fun a b : Str × Nat =>
        b.2 < a.2 ∨ (a.2 = b.2 ∧ firstOccursBefore (tokensOf colVals) a.1 b.1))
        v.common_words ∧
      ∀ p ∈ counter (tokensOf colVals),
        p ∈ v.common_words ∨ ∀ q ∈ v.common_words, p.2 ≤ q.2 := by
  refine ⟨{ vocabulary_size := (counterKeys (tokensOf colVals)).length,
            avg_word_length := if tokensOf colVals = [] then none
              else some (((tokensOf colVals).map (fun w => (w.length : ℚ))).sum /
                (tokensOf colVals).length),
            common_words := mostCommon 50 (tokensOf colVals) }, ?_, ?_, ?_, ?_⟩
  · unfold analyze_vocabulary
    rw [hcol]
  · exact mostCommon_length_le 50 _
  · exact mostCommon_pairwise 50 _
  · exact mostCommon_most_frequent 50 _

/-- Witness for `common_words_spec` at a concrete two-row corpus. -/
theorem common_words_spec_witness :
    ∃ v, analyze_vocabulary
        [(strL "note", [some (strL "a b"), some (strL "b c")])] (strL "note") =
        .ok v ∧
      v.common_words.length ≤ 50 ∧
      List.Pairwise (fun a b : Str × Nat =>
        b.2 < a.2 ∨
          (a.2 = b.2 ∧
            firstOccursBefore (tokensOf [some (strL "a b"), some (strL "b c")])
              a.1 b.1)) v.common_words ∧
      ∀ p ∈ counter (tokensOf [some (strL "a b"), some (strL "b c")]),
        p ∈ v.common_words ∨ ∀ q ∈ v.common_words, p.2 ≤ q.2 :=
  common_words_spec
    [(strL "note", [some (strL "a b"), some (strL "b c")])] (strL "note")
    [some (strL "a b"), some (strL "b c")] (by decide)

/-! Delimiter splitting of a batch response (src/generate_note.py) -/

/-- Model of `response.split("===")` (Python `str.split` with a separator):
    non-overlapping occurrences scanned from the left, empty pieces kept. -/
def splitDelim : Str → List Str
  | '=' :: '=' :: '=' :: rest => [] :: splitDelim rest
  | c :: rest =>
    match splitDelim rest with
    | [] => [[c]]
    | g :: gs => (c :: g) :: gs
  | [] => [[]]

/-- Python `str.strip()`: remove leading and trailing whitespace. -/
def pyStrip (s : Str) : Str :=
  ((s.dropWhile pyIsSpace).reverse.dropWhile pyIsSpace).reverse

/-- The response-splitting tail of `generate_batch` (src/generate_note.py,
    lines 68-70): `[note.strip() for note in content.split("===") if
    note.strip()]`, applied to the text returned by the generation API. -/
def generate_batch_split (content : Str) : List Str :=
  ((splitDelim content).filter (fun note => pyStrip note ≠ [])).map pyStrip

theorem dropWhile_head_false (p : Char → Bool) :
    ∀ l : Str, List.dropWhile p l = [] ∨
      ∃ c cs, List.dropWhile p l = c :: cs ∧ p c = false := by
  intro l
  induction l with
  | nil => exact Or.inl rfl
  | cons c cs ih =>
    by_cases h : p c
    · simpa [List.dropWhile_cons, h] using ih
    · exact Or.inr ⟨c, cs, by simp [List.dropWhile_cons, h], by simpa using h⟩

theorem dropWhile_of_head_false {p : Char → Bool} {c : Char} {cs : Str}
    (h : p c = false) : List.dropWhile p (c :: cs) = c :: cs := by
  simp [List.dropWhile_cons, h]

/-- Stripping is idempotent: a stripped string strips to itself. -/
theorem pyStrip_idem (s : Str) : pyStrip (pyStrip s) = pyStrip s := by
  unfold pyStrip
  rcases dropWhile_head_false pyIsSpace (s.dropWhile pyIsSpace).reverse with
    hb | ⟨c, cs, hb, hc⟩
  · rw [hb]
    simp
  · rw [hb]
    -- the stripped string is `(c :: cs).reverse`; its first character is the
    -- head of `s.dropWhile pyIsSpace`, which fails `pyIsSpace`
    have hsuffix : List.IsSuffix (c :: cs) (s.dropWhile pyIsSpace).reverse := by
      rw [← hb]
      exact List.dropWhile_suffix pyIsSpace
    have hpre : List.IsPrefix (c :: cs).reverse (s.dropWhile pyIsSpace) := by
      have h2 := List.reverse_prefix.mpr hsuffix
      simpa using h2
    rcases dropWhile_head_false pyIsSpace s with ha | ⟨c', cs', ha, hc'⟩
    · rw [ha] at hpre
      simp at hpre
    · obtain ⟨t, ht⟩ := hpre
      rw [ha] at ht
      rcases hrev : (c :: cs).reverse with _ | ⟨d, ds⟩
      · simp at hrev
      · rw [hrev] at ht
        have hcd : pyIsSpace d = false := by
          have h3 := congrArg List.head? ht
          simp at h3
          rw [h3]
          exact hc'
        rw [dropWhile_of_head_false hcd]
        have h4 : (d :: ds).reverse = c :: cs := by
          rw [← hrev]
          simp
        rw [h4, dropWhile_of_head_false hc]
        exact hrev

/-- C9: the delimiter-splitting `generate_batch` splits the response on
    `"==="`, strips whitespace from each segment, silently drops segments
    empty after stripping and keeps the rest in order; the documented
    example yields exactly two notes and a malformed response yields `[]`
    without error. -/
theorem generate_batch_split_spec :
    generate_batch_split (strL "note one === note two ===") =
      [strL "note one", strL "note two"] ∧
    generate_batch_split (strL "===") = [] ∧
    ∀ content : Str,
      (∀ s ∈ generate_batch_split content, s ≠ [] ∧ pyStrip s = s) ∧
      List.Sublist (generate_batch_split content)
        ((splitDelim content).map pyStrip) := by
  refine ⟨by decide, by decide, fun content => ⟨?_, ?_⟩⟩
  · intro s hs
    obtain ⟨note, hnote, rfl⟩ := List.mem_map.mp hs
    have hne := (List.mem_filter.mp hnote).2
    exact ⟨by simpa using hne, pyStrip_idem note⟩
  · exact List.Sublist.map pyStrip (List.filter_sublist _)

/-- Witness for `generate_batch_split_spec`: the first returned note of the
    example response is nonempty and already stripped. -/
theorem generate_batch_split_spec_witness :
    strL "note one" ≠ [] ∧ pyStrip (strL "note one") = strL "note one" :=
  (generate_batch_split_spec.2.2 (strL "note one === note two ===")).1
    (strL "note one") (by decide)

/-! Markup instruction building -/

/-- The `Union[str, List[str]]` entity-type argument. -/
inductive EntityInput where
  | single (s : Str)
  | multiple (l : List Str)
deriving DecidableEq

/-- The `{system_prompt, user_prompt}` dictionary returned by
    `add_markup_instructions`. -/
structure PromptPair where
  system_prompt : Str
  user_prompt : Str
deriving DecidableEq

/-- One per-type sentence of the multi-type branch:
    `f"Mark each {etype} with [{chr(65+i)}] tags"`. -/
def typeInstruction (i : Nat) (etype : Str) : Str :=
  strL "Mark each " ++ etype ++ strL " with [" ++ [Char.ofNat (65 + i)] ++
    strL "] tags"

/-- Python `'. '.join(l)`. -/
def joinDotSpace : List Str → Str
  | [] => []
  | [s] => s
  | s :: rest => s ++ strL ". " ++ joinDotSpace rest

/-- The system prompt built by `add_markup_instructions`
    (src/enhance_prompt.py): single-type branch when the list has exactly
    one element, multi-type branch otherwise; out-of-range subscripts
    raise `IndexError`; `if relation_name:` is false for `None` and for
    the empty string. -/
def markupSystemPrompt (entity_types : List Str) (relation_name : Option Str) :
    Except PyError Str := do
  let base ←
    if entity_types.length = 1 then
      match entity_types[0]? with
      | some e0 =>
        pure (strL "You are a clinical note generator.\nMark each " ++ e0 ++
          strL " mentioned in the text with [E] tags.\nExample: The patient takes [E]aspirin[/E].")
      | none => throw PyError.indexError
    else
      let type_instructions := entity_types.mapIdx typeInstruction
      match type_instructions[0]?, type_instructions[1]? with
      | some t0, some t1 =>
        pure (strL "You are a clinical note generator.\n" ++
          joinDotSpace type_instructions ++ strL ".\nExample: " ++ t0 ++
          strL ": The patient has [A]diabetes[/A]\n         " ++ t1 ++
          strL ": Diagnosed on [B]January 2020[/B]")
      | _, _ => throw PyError.indexError
  match relation_name with
  | none => pure base
  | some rel =>
    if rel = [] then pure base
    else
      match entity_types[0]?,
          (if 1 < entity_types.length then entity_types[1]?
           else entity_types[0]?) with
      | some ea, some eb =>
        pure (base ++ strL "\n\nAfter the note, list any " ++ rel ++
          strL " relationships between marked entities:\n[RELATIONS]\n" ++
          ea ++ strL ", " ++ eb ++ strL "\n[/RELATIONS]")
      | _, _ => throw PyError.indexError

/-- Model of `add_markup_instructions(prompt, entity_type, relation_name)`
    (src/enhance_prompt.py): a single string is wrapped into a one-element
    list, the system prompt is built, and the caller's prompt is returned
    untouched as `user_prompt`. -/
def add_markup_instructions (prompt : Str) (entity_type : EntityInput)
    (relation_name : Option Str) : Except PyError PromptPair :=
  let entity_types :=
    match entity_type with
    | .single s => [s]
    | .multiple l => l
  (markupSystemPrompt entity_types relation_name).map
    (fun sp => { system_prompt := sp, user_prompt := prompt })

theorem except_map_ok {γ : Type} (f : Str → γ) (e : Except PyError Str) (y : γ)
    (h : Except.map f e = .ok y) : ∃ x, e = .ok x ∧ y = f x := by
  cases e with
  | error err => simp [Except.map] at h
  | ok x => exact ⟨x, rfl, by simpa [Except.map] using h.symm⟩

/-- In the single-type case the system prompt is the single-type template
    around the entity name, possibly extended by a relation block. -/
theorem markupSystemPrompt_single (e0 : Str) (rel : Option Str) :
    ∃ tail, markupSystemPrompt [e0] rel =
      .ok ((strL "You are a clinical note generator.\nMark each " ++ e0 ++
        strL " mentioned in the text with [E] tags.\nExample: The patient takes [E]aspirin[/E].") ++
        tail) := by
  rcases rel with _ | r
  · exact ⟨[], by simp [markupSystemPrompt]; rfl⟩
  · by_cases hr : r = []
    · exact ⟨[], by simp [markupSystemPrompt, hr]; rfl⟩
    · refine ⟨strL "\n\nAfter the note, list any " ++ r ++
        strL " relationships between marked entities:\n[RELATIONS]\n" ++
        e0 ++ strL ", " ++ e0 ++ strL "\n[/RELATIONS]", ?_⟩
      simp [markupSystemPrompt, hr]
      rfl

set_option maxRecDepth 8192 in
/-- C6: the user prompt is always passed through unchanged, and in the
    single-entity-type case the system prompt contains the literal `[E]`
    and `[/E]` tags and the entity-type name. -/
theorem add_markup_instructions_spec (prompt : Str) (et : EntityInput)
    (rel : Option Str) :
    (∀ pp, add_markup_instructions prompt et rel = .ok pp →
      pp.user_prompt = prompt) ∧
    (∀ e0 pp, et = .single e0 →
      add_markup_instructions prompt et rel = .ok pp →
        List.IsInfix (strL "[E]") pp.system_prompt ∧
        List.IsInfix (strL "[/E]") pp.system_prompt ∧
        List.IsInfix e0 pp.system_prompt) := by
  constructor
  · intro pp hpp
    rcases et with e0 | ets <;>
    · unfold add_markup_instructions at hpp
      obtain ⟨sp, hsp, hpp2⟩ := except_map_ok _ _ _ hpp
      rw [hpp2]
  · rintro e0 pp rfl hpp
    obtain ⟨tail, htail⟩ := markupSystemPrompt_single e0 rel
    unfold add_markup_instructions at hpp
    obtain ⟨sp, hsp, hpp2⟩ := except_map_ok _ _ _ hpp
    rw [htail] at hsp
    have hspe : sp =
        (strL "You are a clinical note generator.\nMark each " ++ e0 ++
          strL " mentioned in the text with [E] tags.\nExample: The patient takes [E]aspirin[/E].") ++
          tail := by
      simpa using hsp.symm
    rw [hpp2]
    dsimp only
    rw [hspe]
    have hbase :
        List.IsInfix
          (strL " mentioned in the text with [E] tags.\nExample: The patient takes [E]aspirin[/E].")
          ((strL "You are a clinical note generator.\nMark each " ++ e0 ++
            strL " mentioned in the text with [E] tags.\nExample: The patient takes [E]aspirin[/E].") ++
            tail) :=
      List.IsInfix.trans ((List.suffix_append _ _).isInfix)
        (( List.prefix_append _ tail).isInfix)
    refine ⟨?_, ?_, ?_⟩
    · exact List.IsInfix.trans (by decide) hbase
    · exact List.IsInfix.trans (by decide) hbase
    · refine List.IsInfix.trans ((List.suffix_append
        (strL "You are a clinical note generator.\nMark each ") e0).isInfix) ?_
      exact List.IsInfix.trans (( List.prefix_append _ _).isInfix)
        (( List.prefix_append _ tail).isInfix)

set_option maxRecDepth 8192 in
/-- Witness for `add_markup_instructions_spec` at
    `add_markup_instructions("note text", "medication")`. -/
theorem add_markup_instructions_spec_witness :
    List.IsInfix (strL "[E]")
      (strL "You are a clinical note generator.\nMark each medication mentioned in the text with [E] tags.\nExample: The patient takes [E]aspirin[/E].") ∧
    List.IsInfix (strL "[/E]")
      (strL "You are a clinical note generator.\nMark each medication mentioned in the text with [E] tags.\nExample: The patient takes [E]aspirin[/E].") ∧
    List.IsInfix (strL "medication")
      (strL "You are a clinical note generator.\nMark each medication mentioned in the text with [E] tags.\nExample: The patient takes [E]aspirin[/E].") :=
  (add_markup_instructions_spec (strL "note text")
      (.single (strL "medication")) none).2 (strL "medication")
    { system_prompt :=
        strL "You are a clinical note generator.\nMark each medication mentioned in the text with [E] tags.\nExample: The patient takes [E]aspirin[/E]."
      user_prompt := strL "note text" } rfl (by rfl)

/-- The multi-type system prompt as the specification words it: one
    sentence per type tagged `chr(65+i)`, joined by `". "`, and two worked
    examples built from the first and second sentences only. -/
def specMultiPrompt (ets : List Str) (t0 t1 : Str) : Str :=
  strL "You are a clinical note generator.\n" ++
    joinDotSpace (ets.mapIdx typeInstruction) ++
    strL ".\nExample: " ++ t0 ++
    strL ": The patient has [A]diabetes[/A]\n         " ++ t1 ++
    strL ": Diagnosed on [B]January 2020[/B]"

/-- With at least two entity types the multi-type branch is taken and the
    system prompt is the instruction sentences joined by `". "` plus the
    two worked examples built from the first two types. -/
theorem markupSystemPrompt_multi (ets : List Str) (e0 e1 : Str)
    (h0 : ets[0]? = some e0) (h1 : ets[1]? = some e1) :
    markupSystemPrompt ets none =
      .ok (specMultiPrompt ets (typeInstruction 0 e0) (typeInstruction 1 e1)) := by
  have hne : ¬ ets.length = 1 := by
    rcases ets with _ | ⟨a, _ | ⟨b, l⟩⟩
    · simp at h0
    · simp at h1
    · simp
  have he0 : (ets.mapIdx typeInstruction)[0]? = some (typeInstruction 0 e0) := by
    rw [List.getElem?_mapIdx, h0]
    rfl
  have he1 : (ets.mapIdx typeInstruction)[1]? = some (typeInstruction 1 e1) := by
    rw [List.getElem?_mapIdx, h1]
    rfl
  unfold markupSystemPrompt
  simp only [if_neg hne, he0, he1]
  rfl

/-- C7: with two or more entity types the system prompt is exactly the
    letter-tagged sentence list joined by `". "` followed by the two worked
    examples, which use only the first and second types no matter how many
    types are given. -/
theorem add_markup_instructions_multi (prompt : Str) (ets : List Str)
    (e0 e1 : Str) (h0 : ets[0]? = some e0) (h1 : ets[1]? = some e1) :
    add_markup_instructions prompt (.multiple ets) none =
      .ok { system_prompt :=
              specMultiPrompt ets (typeInstruction 0 e0) (typeInstruction 1 e1),
            user_prompt := prompt } := by
  unfold add_markup_instructions
  dsimp only
  rw [markupSystemPrompt_multi ets e0 e1 h0 h1]
  rfl

/-- Witness for `add_markup_instructions_multi` at
    `addMarkupInstructions("x", ["diagnosis", "date"])`. -/
theorem add_markup_instructions_multi_witness :
    add_markup_instructions (strL "x")
        (.multiple [strL "diagnosis", strL "date"]) none =
      .ok { system_prompt :=
              specMultiPrompt [strL "diagnosis", strL "date"]
                (typeInstruction 0 (strL "diagnosis"))
                (typeInstruction 1 (strL "date")),
            user_prompt := strL "x" } :=
  add_markup_instructions_multi (strL "x") [strL "diagnosis", strL "date"]
    (strL "diagnosis") (strL "date") rfl rfl

/-- C10: an empty entity-type list takes the multi-type branch, whose
    example block indexes `type_instructions[0]`, so the call fails with an
    uncaught `IndexError` for every prompt and relation argument. -/
theorem add_markup_instructions_empty (prompt : Str) (rel : Option Str) :
    add_markup_instructions prompt (.multiple []) rel =
      .error .indexError := by
  rfl

/-! Basic text statistics and analysis dispatch -/

/-- The five-number summary pandas produces for a column. -/
structure AggStats where
  mean : Option ℚ
  std : Option ℝ
  min : Option ℚ
  max : Option ℚ
  median : Option ℚ

/-- Model of `Series.min()` over the non-NaN values (`none` when there are none). -/
def listMin : List ℚ → Option ℚ
  | [] => none
  | x :: xs => some (xs.foldl Min.min x)

/-- Model of `Series.max()` over the non-NaN values. -/
def listMax : List ℚ → Option ℚ
  | [] => none
  | x :: xs => some (xs.foldl Max.max x)

/-- Model of `Series.median()`: the middle sorted value, or the mean of the two
    middle values for an even count. -/
def medianQ (xs : List ℚ) : Option ℚ :=
  let s := List.insertionSort (fun a b => a ≤ b) xs
  if s.length = 0 then none
  else if s.length % 2 = 1 then s[s.length / 2]?
  else do
    let a ← s[s.length / 2 - 1]?
    let b ← s[s.length / 2]?
    pure ((a + b) / 2)

/-- Sample variance (`ddof=1`): the square of pandas `Series.std()`. -/
def sampleVar (xs : List ℚ) : ℚ :=
  let m := xs.sum / xs.length
  ((xs.map (fun x => (x - m) ^ 2)).sum) / ((xs.length : ℚ) - 1)

/-- pandas aggregation over a float column: NaN entries (`none`) are
    skipped (`skipna=True`, the default); `std` uses `ddof=1` and is NaN
    for fewer than two values; an all-NaN column yields NaN throughout. -/
noncomputable def aggStats (vals : List (Option ℚ)) : AggStats :=
  let xs := vals.filterMap id
  { mean := if xs = [] then none else some (xs.sum / xs.length)
    std := if 2 ≤ xs.length then some (Real.sqrt (sampleVar xs)) else none
    min := listMin xs
    max := listMax xs
    median := medianQ xs }

/-- The `{length_stats, sentence_stats}` dictionary of
    `get_basic_text_stats`. -/
structure BasicTextStats where
  length_stats : AggStats
  sentence_stats : AggStats

/-- The statistics `get_basic_text_stats` computes from the text column:
    `df[text_col].str.len()` and `df[text_col].str.count('\.')` (a literal
    period count), each aggregated by pandas.  There is no `fillna` here:
    a `none` cell stays NaN and is skipped by the aggregations. -/
noncomputable def basicStatsOf (colVals : List (Option Str)) : BasicTextStats :=
  { length_stats :=
      aggStats (colVals.map (Option.map (fun s => (s.length : ℚ))))
    sentence_stats :=
      aggStats (colVals.map (Option.map (fun s => (s.count '.' : ℚ)))) }

/-- Model of `get_basic_text_stats(df, text_col)` (src/enhance_prompt.py); the
    column subscript raises `KeyError` before anything is computed when
    the column is absent. -/
noncomputable def get_basic_text_stats (df : DataFrame) (text_col : Str) :
    Except PyError BasicTextStats :=
  match getCol df text_col with
  | none => .error .keyError
  | some colVals => .ok (basicStatsOf colVals)

/-- The report dictionary built by `analyze_data`: each section is present
    exactly when it was computed. -/
structure StatisticsReport where
  basic : Option BasicTextStats
  vocabulary : Option VocabStats

/-- Model of `analyze_data(df, text_col, analysis_types)` (src/enhance_prompt.py):
    `None` defaults to `['basic', 'vocabulary']`; each recognised name in
    the list adds its section; anything else is ignored. -/
noncomputable def analyze_data (df : DataFrame) (text_col : Str)
    (analysis_types : Option (List Str)) : Except PyError StatisticsReport :=
  let ats := analysis_types.getD [strL "basic", strL "vocabulary"]
  match (if strL "basic" ∈ ats then
      Except.map some (get_basic_text_stats df text_col)
    else pure none) with
  | .error e => .error e
  | .ok b =>
    match (if strL "vocabulary" ∈ ats then
        Except.map some (analyze_vocabulary df text_col)
      else pure none) with
    | .error e => .error e
    | .ok v => .ok { basic := b, vocabulary := v }

theorem get_basic_text_stats_ok (df : DataFrame) (text_col : Str)
    (colVals : List (Option Str)) (hcol : getCol df text_col = some colVals) :
    get_basic_text_stats df text_col = .ok (basicStatsOf colVals) := by
  unfold get_basic_text_stats
  rw [hcol]

/-- The record `analyze_vocabulary` computes from a present column. -/
def vocabStatsOf (colVals : List (Option Str)) : VocabStats :=
  { vocabulary_size := (counterKeys (tokensOf colVals)).length
    avg_word_length := if tokensOf colVals = [] then none
      else some (((tokensOf colVals).map (fun w => (w.length : ℚ))).sum /
        (tokensOf colVals).length)
    common_words := mostCommon 50 (tokensOf colVals) }

theorem analyze_vocabulary_ok (df : DataFrame) (text_col : Str)
    (colVals : List (Option Str)) (hcol : getCol df text_col = some colVals) :
    analyze_vocabulary df text_col = .ok (vocabStatsOf colVals) := by
  unfold analyze_vocabulary
  rw [hcol]
  rfl

/-- C4: a missing text column makes `get_basic_text_stats` fail with the
    input error immediately, before any statistics are computed. -/
theorem get_basic_text_stats_missing_col (df : DataFrame) (text_col : Str)
    (h : getCol df text_col = none) :
    get_basic_text_stats df text_col = .error .keyError := by
  unfold get_basic_text_stats
  rw [h]

/-- Witness for `get_basic_text_stats_missing_col`: an empty frame has no
    `note` column. -/
theorem get_basic_text_stats_missing_col_witness :
    get_basic_text_stats [] (strL "note") = .error .keyError :=
  get_basic_text_stats_missing_col [] (strL "note") rfl

/-! Null handling -/

/-- The treatment C5 ascribes to `get_basic_text_stats`: null text values
    replaced by the empty string *before* the length/sentence statistics
    (this would require a `fillna('')` that the source code does not
    have). -/
noncomputable def get_basic_text_stats_fillna (df : DataFrame)
    (text_col : Str) : Except PyError BasicTextStats :=
  match getCol df text_col with
  | none => .error .keyError
  | some colVals =>
    let texts := colVals.map (fun o => o.getD [])
    .ok { length_stats :=
            aggStats (texts.map (fun s => some (s.length : ℚ)))
          sentence_stats :=
            aggStats (texts.map (fun s => some (s.count '.' : ℚ))) }

/-- The corpus refuting C5: one text of length 2 and one null. -/
def dfC5 : DataFrame := [(strL "note", [some ['a', 'b'], none])]

/-- C5 counterexample: on `dfC5` the code's mean text length is 2 — pandas
    skips the NaN produced by the null — whereas treating the null as an
    empty string (character length 0), as the claim states, would give
    mean 1. -/
theorem null_length_counterexample :
    (get_basic_text_stats dfC5 (strL "note")).toOption.map
        (fun r => r.length_stats.mean) = some (some 2) ∧
    (get_basic_text_stats_fillna dfC5 (strL "note")).toOption.map
        (fun r => r.length_stats.mean) = some (some 1) ∧
    ¬ ((2 : ℚ) = 1) := by
  refine ⟨?_, ?_, by norm_num⟩
  · rw [get_basic_text_stats_ok dfC5 (strL "note") [some ['a', 'b'], none] rfl]
    simp [basicStatsOf, aggStats]
    exact ⟨_, rfl, rfl⟩
  · show (Except.ok _).toOption.map _ = _
    simp only [Except.toOption, Option.map_some']
    simp [aggStats]

/-- Splitting distributes over appending at a whitespace character, since
    the separator itself never lands in a token. -/
theorem splitWSAux_append_space (a : Str) :
    ∀ (cur b : Str),
      splitWSAux cur (a ++ ' ' :: b) = splitWSAux cur a ++ splitWSAux [] b := by
  induction a with
  | nil =>
    intro cur b
    by_cases h : cur = [] <;>
      simp [splitWSAux, h, pyIsSpace]
  | cons c a ih =>
    intro cur b
    by_cases hc : pyIsSpace c
    · by_cases h : cur = [] <;>
        simp [splitWSAux, hc, h, ih]
    · simp [splitWSAux, hc, ih]

/-- Joining with single spaces and then splitting on whitespace is the
    concatenation of the individual splits. -/
theorem pySplitWS_joinSpace (l : List Str) :
    pySplitWS (joinSpace l) = l.flatMap pySplitWS := by
  induction l with
  | nil => rfl
  | cons s rest ih =>
    cases rest with
    | nil => simp [joinSpace, List.flatMap]
    | cons t ts =>
      show pySplitWS (s ++ ' ' :: joinSpace (t :: ts)) = _
      unfold pySplitWS
      rw [splitWSAux_append_space]
      rw [show splitWSAux [] (joinSpace (t :: ts)) =
        pySplitWS (joinSpace (t :: ts)) from rfl, ih]
      simp [pySplitWS]
      rfl

theorem filterMap_id_map_optionMap (f : Str → ℚ) (l : List (Option Str)) :
    (l.map (Option.map f)).filterMap id = (l.filterMap id).map f := by
  induction l with
  | nil => rfl
  | cons o l ih => cases o <;> simp [ih]

/-- A null cell becomes the empty string and so contributes no tokens:
    the token stream is the concatenation of each cell's own tokens. -/
theorem tokensOf_flatMap (colVals : List (Option Str)) :
    tokensOf colVals = colVals.flatMap (fun o => pySplitWS (o.getD [])) := by
  unfold tokensOf
  rw [pySplitWS_joinSpace]
  induction colVals with
  | nil => rfl
  | cons o l ih => simp [ih]

/-- C5 amended: with the column present neither analysis raises.
    `analyze_vocabulary` replaces nulls by the empty string, which
    contributes no tokens; `get_basic_text_stats`, however, computes its
    aggregates over the non-null values only — pandas skips the NaN rather
    than counting a length of 0. -/
theorem null_handling_amended (df : DataFrame) (text_col : Str)
    (colVals : List (Option Str)) (hcol : getCol df text_col = some colVals) :
    (∃ v, analyze_vocabulary df text_col = .ok v) ∧
    (∃ r, get_basic_text_stats df text_col = .ok r ∧
      r.length_stats.mean =
        (if ((colVals.filterMap id).map (fun s => (s.length : ℚ))) = []
         then none
         else some
           (((colVals.filterMap id).map (fun s => (s.length : ℚ))).sum /
             ((colVals.filterMap id).map (fun s => (s.length : ℚ))).length))) ∧
    tokensOf colVals = colVals.flatMap (fun o => pySplitWS (o.getD [])) ∧
    pySplitWS [] = [] := by
  refine ⟨⟨_, analyze_vocabulary_ok df text_col colVals hcol⟩,
    ⟨basicStatsOf colVals, get_basic_text_stats_ok df text_col colVals hcol, ?_⟩,
    ?_, rfl⟩
  · show (aggStats (colVals.map (Option.map (fun s => (s.length : ℚ))))).mean = _
    unfold aggStats
    rw [filterMap_id_map_optionMap]
  · exact tokensOf_flatMap colVals

/-- Witness for `null_handling_amended` at the two-row corpus `dfC5`. -/
theorem null_handling_amended_witness :
    (∃ v, analyze_vocabulary dfC5 (strL "note") = .ok v) ∧
    (∃ r, get_basic_text_stats dfC5 (strL "note") = .ok r ∧
      r.length_stats.mean =
        (if (([some ['a', 'b'], none].filterMap id).map
            (fun s => (s.length : ℚ))) = []
         then none
         else some
           ((([some ['a', 'b'], none].filterMap id).map
              (fun s => (s.length : ℚ))).sum /
             (([some ['a', 'b'], none].filterMap id).map
              (fun s => (s.length : ℚ))).length))) ∧
    tokensOf [some ['a', 'b'], none] =
      [some ['a', 'b'], none].flatMap (fun o => pySplitWS (o.getD [])) ∧
    pySplitWS [] = [] :=
  null_handling_amended dfC5 (strL "note") [some ['a', 'b'], none] rfl

/-! Section selection of the analysis dispatch -/

/-- C8: with the text column present, unspecified `analysis_types`
    computes exactly the `basic` and `vocabulary` sections, and an
    explicit list produces exactly the recognised requested sections —
    unknown analysis-type names are ignored without error. -/
theorem analyze_data_sections (df : DataFrame) (text_col : Str)
    (colVals : List (Option Str)) (hcol : getCol df text_col = some colVals) :
    (∃ r, analyze_data df text_col none = .ok r ∧
      r.basic.isSome ∧ r.vocabulary.isSome) ∧
    ∀ ts : List Str, ∃ r, analyze_data df text_col (some ts) = .ok r ∧
      (r.basic.isSome ↔ strL "basic" ∈ ts) ∧
      (r.vocabulary.isSome ↔ strL "vocabulary" ∈ ts) := by
  have hb := get_basic_text_stats_ok df text_col colVals hcol
  have hv := analyze_vocabulary_ok df text_col colVals hcol
  constructor
  · refine ⟨⟨some (basicStatsOf colVals), some (vocabStatsOf colVals)⟩,
      ?_, by simp, by simp⟩
    have h1 : strL "basic" ∈ [strL "basic", strL "vocabulary"] := by decide
    have h2 : strL "vocabulary" ∈ [strL "basic", strL "vocabulary"] := by decide
    unfold analyze_data
    dsimp only
    simp only [Option.getD_none]
    rw [if_pos h1, if_pos h2, hb, hv]
    rfl
  · intro ts
    by_cases hbt : strL "basic" ∈ ts <;> by_cases hvt : strL "vocabulary" ∈ ts
    · refine ⟨⟨some (basicStatsOf colVals), some (vocabStatsOf colVals)⟩,
        ?_, by simpa using hbt, by simpa using hvt⟩
      unfold analyze_data
      dsimp only
      simp only [Option.getD_some]
      rw [if_pos hbt, if_pos hvt, hb, hv]
      rfl
    · refine ⟨⟨some (basicStatsOf colVals), none⟩,
        ?_, by simpa using hbt, by simpa using hvt⟩
      unfold analyze_data
      dsimp only
      simp only [Option.getD_some]
      rw [if_pos hbt, if_neg hvt, hb]
      rfl
    · refine ⟨⟨none, some (vocabStatsOf colVals)⟩,
        ?_, by simpa using hbt, by simpa using hvt⟩
      unfold analyze_data
      dsimp only
      simp only [Option.getD_some]
      rw [if_neg hbt, if_pos hvt, hv]
      rfl
    · refine ⟨⟨none, none⟩,
        ?_, by simpa using hbt, by simpa using hvt⟩
      unfold analyze_data
      dsimp only
      simp only [Option.getD_some]
      rw [if_neg hbt, if_neg hvt]
      rfl

/-- Witness for `analyze_data_sections` at a one-row corpus and the
    request list `["vocabulary", "nonsense"]`: the unknown name is ignored
    and only the vocabulary section is produced. -/
theorem analyze_data_sections_witness :
    ∃ r, analyze_data [(strL "note", [some ['h', 'i']])] (strL "note")
        (some [strL "vocabulary", strL "nonsense"]) = .ok r ∧
      (r.basic.isSome ↔ strL "basic" ∈ [strL "vocabulary", strL "nonsense"]) ∧
      (r.vocabulary.isSome ↔
        strL "vocabulary" ∈ [strL "vocabulary", strL "nonsense"]) :=
  (analyze_data_sections [(strL "note", [some ['h', 'i']])] (strL "note")
    [some ['h', 'i']] rfl).2 [strL "vocabulary", strL "nonsense"]

/-! Guidance rendering -/

/-- Decimal digit characters of a natural number, as Python prints
    integers.  Fuel-based recursion; the fuel `n + 1` always suffices. -/
def natDigitsAux : Nat → Nat → Str
  | 0, _ => []
  | fuel + 1, n =>
    if n < 10 then [Char.ofNat (48 + n)]
    else natDigitsAux fuel (n / 10) ++ [Char.ofNat (48 + n % 10)]

/-- Decimal representation of a natural number. -/
def natDigits (n : Nat) : Str := natDigitsAux (n + 1) n

/-- Round half to even, the rounding Python float formatting applies. -/
def roundHalfEven (q : ℚ) : ℤ :=
  if q - ⌊q⌋ < 1 / 2 then ⌊q⌋
  else if 1 / 2 < q - ⌊q⌋ then ⌊q⌋ + 1
  else if 2 ∣ ⌊q⌋ then ⌊q⌋ else ⌊q⌋ + 1

/-- Python `f"{x:.0f}"` on a value modelled as `ℚ`; `none` (NaN) prints as
    `"nan"`; a negative value keeps its sign even when it rounds to 0. -/
def formatF0 : Option ℚ → Str
  | none => strL "nan"
  | some q =>
    (if q < 0 then ['-'] else []) ++ natDigits (roundHalfEven |q|).toNat

/-- Python `f"{x:.1f}"`: one decimal place. -/
def formatF1 : Option ℚ → Str
  | none => strL "nan"
  | some q =>
    let n := (roundHalfEven (|q| * 10)).toNat
    (if q < 0 then ['-'] else []) ++ natDigits (n / 10) ++
      '.' :: natDigits (n % 10)

/-- Python `', '.join(l)`. -/
def joinCommaSpace : List Str → Str
  | [] => []
  | [s] => s
  | s :: rest => s ++ strL ", " ++ joinCommaSpace rest

/-- The line `"- Target length: {mean:.0f} characters (range: {min:.0f}-{max:.0f})"`
    (without its trailing newline). -/
def targetLengthLine (ls : AggStats) : Str :=
  strL "- Target length: " ++ formatF0 ls.mean ++
    strL " characters (range: " ++ formatF0 ls.min ++ strL "-" ++
    formatF0 ls.max ++ strL ")"

/-- The line `"- Target sentences: {mean:.1f} (range: {min:.0f}-{max:.0f})"`. -/
def targetSentencesLine (ss : AggStats) : Str :=
  strL "- Target sentences: " ++ formatF1 ss.mean ++ strL " (range: " ++
    formatF0 ss.min ++ strL "-" ++ formatF0 ss.max ++ strL ")"

/-- The line `"- Vocabulary size: {vocabulary_size} unique words"`. -/
def vocabularySizeLine (v : VocabStats) : Str :=
  strL "- Vocabulary size: " ++ natDigits v.vocabulary_size ++
    strL " unique words"

/-- The line `"- Average word length: {avg_word_length:.1f} characters"`. -/
def avgWordLengthLine (v : VocabStats) : Str :=
  strL "- Average word length: " ++ formatF1 v.avg_word_length ++
    strL " characters"

/-- The line `"- Common words: {', '.join(first 5 common words)}"`. -/
def commonWordsLine (v : VocabStats) : Str :=
  strL "- Common words: " ++
    joinCommaSpace ((v.common_words.map Prod.fst).take 5)

/-- Model of `create_stats_guidance(stats)` (src/enhance_prompt.py): the header
    followed, per present section, by that section's lines, each ended by
    a newline; an absent section contributes nothing. -/
def create_stats_guidance (stats : StatisticsReport) : Str :=
  strL "\nStatistical properties to match:\n" ++
  (match stats.basic with
   | none => []
   | some b =>
     targetLengthLine b.length_stats ++ '\n' ::
       (targetSentencesLine b.sentence_stats ++ ['\n'])) ++
  (match stats.vocabulary with
   | none => []
   | some v =>
     vocabularySizeLine v ++ '\n' ::
       (avgWordLengthLine v ++ '\n' :: (commonWordsLine v ++ ['\n'])))

/-- Model of `enhance_prompt_with_stats(prompt, stats)`:
    `f"{prompt}\n\n{stats_guidance}"`. -/
def enhance_prompt_with_stats (prompt : Str) (stats : StatisticsReport) :
    Str :=
  prompt ++ strL "\n\n" ++ create_stats_guidance stats

/-- Split at newline characters, keeping empty pieces: the line structure
    of a rendered text. -/
def splitNl : Str → List Str
  | [] => [[]]
  | c :: cs =>
    if c = '\n' then [] :: splitNl cs
    else (c :: (splitNl cs).headI) :: (splitNl cs).tail

theorem natDigitsAux_digits (fuel : Nat) :
    ∀ n c, c ∈ natDigitsAux fuel n → c ∈ strL "0123456789" := by
  induction fuel with
  | zero =>
    intro n c hc
    simp [natDigitsAux] at hc
  | succ fuel ih =>
    intro n c hc
    unfold natDigitsAux at hc
    by_cases h : n < 10
    · rw [if_pos h] at hc
      simp at hc
      subst hc
      interval_cases n <;> decide
    · rw [if_neg h] at hc
      rcases List.mem_append.mp hc with h1 | h1
      · exact ih _ _ h1
      · simp at h1
        subst h1
        have hm : n % 10 < 10 := Nat.mod_lt _ (by norm_num)
        set k := n % 10 with hk
        interval_cases k <;> decide

theorem not_mem_append {c : Char} {a b : Str} (ha : c ∉ a) (hb : c ∉ b) :
    c ∉ a ++ b :=
  fun h => (List.mem_append.mp h).elim ha hb

theorem nl_not_mem_natDigits (n : Nat) : '\n' ∉ natDigits n :=
  fun h => absurd (natDigitsAux_digits (n + 1) n '\n' h) (by decide)

theorem nl_not_mem_sign (q : ℚ) :
    '\n' ∉ (if q < 0 then ['-'] else ([] : Str)) := by
  by_cases hq : q < 0
  · rw [if_pos hq]
    decide
  · rw [if_neg hq]
    decide

theorem nl_not_mem_formatF0 (x : Option ℚ) : '\n' ∉ formatF0 x := by
  rcases x with _ | q
  · decide
  · exact not_mem_append (nl_not_mem_sign q) (nl_not_mem_natDigits _)

theorem nl_not_mem_formatF1 (x : Option ℚ) : '\n' ∉ formatF1 x := by
  rcases x with _ | q
  · decide
  · refine not_mem_append
      (not_mem_append (nl_not_mem_sign q) (nl_not_mem_natDigits _)) ?_
    intro h
    rcases List.mem_cons.mp h with h1 | h1
    · exact absurd h1 (by decide)
    · exact nl_not_mem_natDigits _ h1

theorem nl_not_mem_joinCommaSpace (l : List Str)
    (h : ∀ s ∈ l, '\n' ∉ s) : '\n' ∉ joinCommaSpace l := by
  induction l with
  | nil => simp [joinCommaSpace]
  | cons s rest ih =>
    cases rest with
    | nil => exact fun hm => h s (by simp) hm
    | cons t ts =>
      intro hm
      replace hm : '\n' ∈ s ++ strL ", " ++ joinCommaSpace (t :: ts) := hm
      rcases List.mem_append.mp hm with h1 | h1
      · rcases List.mem_append.mp h1 with h2 | h2
        · exact h s (by simp) h2
        · exact absurd h2 (by decide)
      · exact ih (fun x hx => h x (List.mem_cons_of_mem s hx)) h1

theorem nl_not_mem_targetLengthLine (ls : AggStats) :
    '\n' ∉ targetLengthLine ls :=
  not_mem_append (not_mem_append (not_mem_append (not_mem_append
    (not_mem_append (not_mem_append (by decide) (nl_not_mem_formatF0 _))
      (by decide)) (nl_not_mem_formatF0 _)) (by decide))
    (nl_not_mem_formatF0 _)) (by decide)

theorem nl_not_mem_targetSentencesLine (ss : AggStats) :
    '\n' ∉ targetSentencesLine ss :=
  not_mem_append (not_mem_append (not_mem_append (not_mem_append
    (not_mem_append (not_mem_append (by decide) (nl_not_mem_formatF1 _))
      (by decide)) (nl_not_mem_formatF0 _)) (by decide))
    (nl_not_mem_formatF0 _)) (by decide)

theorem nl_not_mem_vocabularySizeLine (v : VocabStats) :
    '\n' ∉ vocabularySizeLine v :=
  not_mem_append (not_mem_append (by decide) (nl_not_mem_natDigits _))
    (by decide)

theorem nl_not_mem_avgWordLengthLine (v : VocabStats) :
    '\n' ∉ avgWordLengthLine v :=
  not_mem_append (not_mem_append (by decide) (nl_not_mem_formatF1 _))
    (by decide)

theorem nl_not_mem_commonWordsLine (v : VocabStats)
    (h : ∀ w ∈ (v.common_words.map Prod.fst).take 5, '\n' ∉ w) :
    '\n' ∉ commonWordsLine v :=
  not_mem_append (by decide) (nl_not_mem_joinCommaSpace _ h)

theorem splitNl_cons_nl (x : Str) : splitNl ('\n' :: x) = [] :: splitNl x := by
  simp [splitNl]

theorem splitNl_append_nl (a b : Str) (ha : '\n' ∉ a) :
    splitNl (a ++ '\n' :: b) = a :: splitNl b := by
  induction a with
  | nil => simp [splitNl]
  | cons c a ih =>
    have hc : ¬ c = '\n' := fun h => ha (h ▸ List.mem_cons_self c a)
    have ha' : '\n' ∉ a := fun h => ha (List.mem_cons_of_mem c h)
    rw [List.cons_append]
    simp only [splitNl]
    rw [if_neg hc, ih ha']
    simp [List.headI]

/-- The line structure of the guidance text, assuming the listed common
    words contain no newline (tokens never do). -/
theorem splitNl_guidance (stats : StatisticsReport)
    (hw : ∀ v, stats.vocabulary = some v →
      ∀ w ∈ (v.common_words.map Prod.fst).take 5, '\n' ∉ w) :
    splitNl (create_stats_guidance stats) =
      [[], strL "Statistical properties to match:"] ++
      (match stats.basic with
       | none => []
       | some b => [targetLengthLine b.length_stats,
                    targetSentencesLine b.sentence_stats]) ++
      (match stats.vocabulary with
       | none => []
       | some v => [vocabularySizeLine v, avgWordLengthLine v,
                    commonWordsLine v]) ++
      [[]] := by
  have hhdr : strL "\nStatistical properties to match:\n" =
      '\n' :: (strL "Statistical properties to match:" ++ ['\n']) := rfl
  rcases stats with ⟨b, v⟩
  rcases b with _ | bs <;> rcases v with _ | vs
  · show splitNl (strL "\nStatistical properties to match:\n" ++ [] ++ []) = _
    rw [hhdr]
    simp only [List.cons_append, List.append_assoc, List.nil_append,
      List.append_nil, List.singleton_append]
    rw [splitNl_cons_nl, splitNl_append_nl _ _ (by decide)]
    rfl
  · have hcw : '\n' ∉ commonWordsLine vs :=
      nl_not_mem_commonWordsLine vs (hw vs rfl)
    show splitNl (strL "\nStatistical properties to match:\n" ++ [] ++
      (vocabularySizeLine vs ++ '\n' :: (avgWordLengthLine vs ++ '\n' ::
        (commonWordsLine vs ++ ['\n'])))) = _
    rw [hhdr]
    simp only [List.cons_append, List.append_assoc, List.nil_append,
      List.append_nil, List.singleton_append]
    rw [splitNl_cons_nl, splitNl_append_nl _ _ (by decide),
      splitNl_append_nl _ _ (nl_not_mem_vocabularySizeLine vs),
      splitNl_append_nl _ _ (nl_not_mem_avgWordLengthLine vs),
      splitNl_append_nl _ _ hcw]
    rfl
  · show splitNl (strL "\nStatistical properties to match:\n" ++
      (targetLengthLine bs.length_stats ++ '\n' ::
        (targetSentencesLine bs.sentence_stats ++ ['\n'])) ++ []) = _
    rw [hhdr]
    simp only [List.cons_append, List.append_assoc, List.nil_append,
      List.append_nil, List.singleton_append]
    rw [splitNl_cons_nl, splitNl_append_nl _ _ (by decide),
      splitNl_append_nl _ _ (nl_not_mem_targetLengthLine _),
      splitNl_append_nl _ _ (nl_not_mem_targetSentencesLine _)]
    rfl
  · have hcw : '\n' ∉ commonWordsLine vs :=
      nl_not_mem_commonWordsLine vs (hw vs rfl)
    show splitNl (strL "\nStatistical properties to match:\n" ++
      (targetLengthLine bs.length_stats ++ '\n' ::
        (targetSentencesLine bs.sentence_stats ++ ['\n'])) ++
      (vocabularySizeLine vs ++ '\n' :: (avgWordLengthLine vs ++ '\n' ::
        (commonWordsLine vs ++ ['\n'])))) = _
    rw [hhdr]
    simp only [List.cons_append, List.append_assoc, List.nil_append,
      List.append_nil, List.singleton_append]
    rw [splitNl_cons_nl, splitNl_append_nl _ _ (by decide),
      splitNl_append_nl _ _ (nl_not_mem_targetLengthLine _),
      splitNl_append_nl _ _ (nl_not_mem_targetSentencesLine _),
      splitNl_append_nl _ _ (nl_not_mem_vocabularySizeLine vs),
      splitNl_append_nl _ _ (nl_not_mem_avgWordLengthLine vs),
      splitNl_append_nl _ _ hcw]
    rfl

/-- A rendered text contains a line starting with `p`. -/
def hasLineStart (p g : Str) : Prop := ∃ l ∈ splitNl g, List.IsPrefix p l

theorem prefix_append_of_prefix {p a b : Str} (h : List.IsPrefix p a) :
    List.IsPrefix p (a ++ b) :=
  h.trans ( List.prefix_append a b)

theorem not_prefix_of_take {p lit var : Str} (k : Nat)
    (h3 : ¬ List.IsPrefix (p.take k) lit) (hlen : k ≤ lit.length) :
    ¬ List.IsPrefix p (lit ++ var) := by
  intro h
  refine h3 ( List.prefix_of_prefix_length_le
    (( List.take_prefix k p).trans h) ( List.prefix_append lit var) ?_)
  rw [List.length_take]
  exact le_trans (min_le_left _ _) hlen

theorem start_TL (ls : AggStats) :
    List.IsPrefix (strL "- Target length:") (targetLengthLine ls) := by
  simp only [targetLengthLine, List.append_assoc]
  exact prefix_append_of_prefix (by decide)

theorem start_TS (ss : AggStats) :
    List.IsPrefix (strL "- Target sentences:") (targetSentencesLine ss) := by
  simp only [targetSentencesLine, List.append_assoc]
  exact prefix_append_of_prefix (by decide)

theorem start_VS (v : VocabStats) :
    List.IsPrefix (strL "- Vocabulary size:") (vocabularySizeLine v) := by
  simp only [vocabularySizeLine, List.append_assoc]
  exact prefix_append_of_prefix (by decide)

theorem start_AW (v : VocabStats) :
    List.IsPrefix (strL "- Average word length:") (avgWordLengthLine v) := by
  simp only [avgWordLengthLine, List.append_assoc]
  exact prefix_append_of_prefix (by decide)

theorem start_CW (v : VocabStats) :
    List.IsPrefix (strL "- Common words:") (commonWordsLine v) := by
  simp only [commonWordsLine, List.append_assoc]
  exact prefix_append_of_prefix (by decide)

theorem not_start_TL {p : Str} (ls : AggStats)
    (h : ¬ List.IsPrefix (p.take 10) (strL "- Target length: ")) :
    ¬ List.IsPrefix p (targetLengthLine ls) := by
  simp only [targetLengthLine, List.append_assoc]
  exact not_prefix_of_take 10 h (by decide)

theorem not_start_TS {p : Str} (ss : AggStats)
    (h : ¬ List.IsPrefix (p.take 10) (strL "- Target sentences: ")) :
    ¬ List.IsPrefix p (targetSentencesLine ss) := by
  simp only [targetSentencesLine, List.append_assoc]
  exact not_prefix_of_take 10 h (by decide)

theorem not_start_VS {p : Str} (v : VocabStats)
    (h : ¬ List.IsPrefix (p.take 10) (strL "- Vocabulary size: ")) :
    ¬ List.IsPrefix p (vocabularySizeLine v) := by
  simp only [vocabularySizeLine, List.append_assoc]
  exact not_prefix_of_take 10 h (by decide)

theorem not_start_AW {p : Str} (v : VocabStats)
    (h : ¬ List.IsPrefix (p.take 10) (strL "- Average word length: ")) :
    ¬ List.IsPrefix p (avgWordLengthLine v) := by
  simp only [avgWordLengthLine, List.append_assoc]
  exact not_prefix_of_take 10 h (by decide)

theorem not_start_CW {p : Str} (v : VocabStats)
    (h : ¬ List.IsPrefix (p.take 10) (strL "- Common words: ")) :
    ¬ List.IsPrefix p (commonWordsLine v) := by
  simp only [commonWordsLine, List.append_assoc]
  exact not_prefix_of_take 10 h (by decide)

set_option maxRecDepth 8192 in
/-- C3: the guidance text has a 'Target length' and a 'Target sentences'
    line iff the report has a `basic` section, and 'Vocabulary size',
    'Average word length' and 'Common words' lines iff it has a
    `vocabulary` section; an absent section contributes no lines, and with
    both sections present the basic block comes entirely before the
    vocabulary block. -/
theorem create_stats_guidance_spec (stats : StatisticsReport)
    (hw : ∀ v, stats.vocabulary = some v →
      ∀ w ∈ (v.common_words.map Prod.fst).take 5, '\n' ∉ w) :
    (hasLineStart (strL "- Target length:") (create_stats_guidance stats) ↔
      stats.basic.isSome) ∧
    (hasLineStart (strL "- Target sentences:") (create_stats_guidance stats) ↔
      stats.basic.isSome) ∧
    (hasLineStart (strL "- Vocabulary size:") (create_stats_guidance stats) ↔
      stats.vocabulary.isSome) ∧
    (hasLineStart (strL "- Average word length:")
        (create_stats_guidance stats) ↔ stats.vocabulary.isSome) ∧
    (hasLineStart (strL "- Common words:") (create_stats_guidance stats) ↔
      stats.vocabulary.isSome) ∧
    (∀ b v, stats.basic = some b → stats.vocabulary = some v →
      splitNl (create_stats_guidance stats) =
        [[], strL "Statistical properties to match:",
         targetLengthLine b.length_stats, targetSentencesLine b.sentence_stats,
         vocabularySizeLine v, avgWordLengthLine v, commonWordsLine v, []]) := by
  rcases stats with ⟨b, v⟩
  rcases b with _ | bs <;> rcases v with _ | vs
  · have hl : splitNl (create_stats_guidance ⟨none, none⟩) =
        [[], strL "Statistical properties to match:", []] := by
      rw [splitNl_guidance ⟨none, none⟩ hw]
      rfl
    refine ⟨?_, ?_, ?_, ?_, ?_, fun b v hb _ => absurd hb (by simp)⟩ <;>
    · simp only [hasLineStart, hl]
      constructor
      · rintro ⟨l, hl', hp⟩
        simp only [List.mem_cons, List.not_mem_nil, or_false] at hl'
        rcases hl' with rfl | rfl | rfl <;> exact absurd hp (by decide)
      · intro h
        exact absurd h (by decide)
  · have hl : splitNl (create_stats_guidance ⟨none, some vs⟩) =
        [[], strL "Statistical properties to match:", vocabularySizeLine vs,
         avgWordLengthLine vs, commonWordsLine vs, []] := by
      rw [splitNl_guidance ⟨none, some vs⟩ hw]
      rfl
    refine ⟨?_, ?_, ?_, ?_, ?_, fun b v hb _ => absurd hb (by simp)⟩
    · simp only [hasLineStart, hl]
      constructor
      · rintro ⟨l, hl', hp⟩
        simp only [List.mem_cons, List.not_mem_nil, or_false] at hl'
        rcases hl' with rfl | rfl | rfl | rfl | rfl | rfl
        · exact absurd hp (by decide)
        · exact absurd hp (by decide)
        · exact (not_start_VS vs (by decide) hp).elim
        · exact (not_start_AW vs (by decide) hp).elim
        · exact (not_start_CW vs (by decide) hp).elim
        · exact absurd hp (by decide)
      · intro h
        exact absurd h (by decide)
    · simp only [hasLineStart, hl]
      constructor
      · rintro ⟨l, hl', hp⟩
        simp only [List.mem_cons, List.not_mem_nil, or_false] at hl'
        rcases hl' with rfl | rfl | rfl | rfl | rfl | rfl
        · exact absurd hp (by decide)
        · exact absurd hp (by decide)
        · exact (not_start_VS vs (by decide) hp).elim
        · exact (not_start_AW vs (by decide) hp).elim
        · exact (not_start_CW vs (by decide) hp).elim
        · exact absurd hp (by decide)
      · intro h
        exact absurd h (by decide)
    · simp only [hasLineStart, hl]
      exact ⟨fun _ => rfl,
        fun _ => ⟨vocabularySizeLine vs, by simp, start_VS vs⟩⟩
    · simp only [hasLineStart, hl]
      exact ⟨fun _ => rfl,
        fun _ => ⟨avgWordLengthLine vs, by simp, start_AW vs⟩⟩
    · simp only [hasLineStart, hl]
      exact ⟨fun _ => rfl,
        fun _ => ⟨commonWordsLine vs, by simp, start_CW vs⟩⟩
  · have hl : splitNl (create_stats_guidance ⟨some bs, none⟩) =
        [[], strL "Statistical properties to match:",
         targetLengthLine bs.length_stats,
         targetSentencesLine bs.sentence_stats, []] := by
      rw [splitNl_guidance ⟨some bs, none⟩ hw]
      rfl
    refine ⟨?_, ?_, ?_, ?_, ?_, fun b v _ hv => absurd hv (by simp)⟩
    · simp only [hasLineStart, hl]
      exact ⟨fun _ => rfl,
        fun _ => ⟨targetLengthLine bs.length_stats, by simp, start_TL _⟩⟩
    · simp only [hasLineStart, hl]
      exact ⟨fun _ => rfl,
        fun _ => ⟨targetSentencesLine bs.sentence_stats, by simp, start_TS _⟩⟩
    all_goals
    · simp only [hasLineStart, hl]
      constructor
      · rintro ⟨l, hl', hp⟩
        simp only [List.mem_cons, List.not_mem_nil, or_false] at hl'
        rcases hl' with rfl | rfl | rfl | rfl | rfl
        · exact absurd hp (by decide)
        · exact absurd hp (by decide)
        · exact (not_start_TL _ (by decide) hp).elim
        · exact (not_start_TS _ (by decide) hp).elim
        · exact absurd hp (by decide)
      · intro h
        exact absurd h (by decide)
  · have hl : splitNl (create_stats_guidance ⟨some bs, some vs⟩) =
        [[], strL "Statistical properties to match:",
         targetLengthLine bs.length_stats,
         targetSentencesLine bs.sentence_stats, vocabularySizeLine vs,
         avgWordLengthLine vs, commonWordsLine vs, []] := by
      rw [splitNl_guidance ⟨some bs, some vs⟩ hw]
      rfl
    refine ⟨?_, ?_, ?_, ?_, ?_, ?_⟩
    · simp only [hasLineStart, hl]
      exact ⟨fun _ => rfl,
        fun _ => ⟨targetLengthLine bs.length_stats, by simp, start_TL _⟩⟩
    · simp only [hasLineStart, hl]
      exact ⟨fun _ => rfl,
        fun _ => ⟨targetSentencesLine bs.sentence_stats, by simp, start_TS _⟩⟩
    · simp only [hasLineStart, hl]
      exact ⟨fun _ => rfl,
        fun _ => ⟨vocabularySizeLine vs, by simp, start_VS vs⟩⟩
    · simp only [hasLineStart, hl]
      exact ⟨fun _ => rfl,
        fun _ => ⟨avgWordLengthLine vs, by simp, start_AW vs⟩⟩
    · simp only [hasLineStart, hl]
      exact ⟨fun _ => rfl,
        fun _ => ⟨commonWordsLine vs, by simp, start_CW vs⟩⟩
    · intro b' v' hb' hv'
      replace hb' : some bs = some b' := hb'
      replace hv' : some vs = some v' := hv'
      injection hb' with h1
      injection hv' with h2
      subst h1
      subst h2
      exact hl

/-- Concrete records used by the guidance witness. -/
def aggW : AggStats :=
  { mean := some 1, std := none, min := some 0, max := some 2,
    median := some 1 }

/-- A concrete basic-statistics record. -/
def basicW : BasicTextStats :=
  { length_stats := aggW, sentence_stats := aggW }

/-- A concrete vocabulary record whose common words are newline-free. -/
def vocabW : VocabStats :=
  { vocabulary_size := 3, avg_word_length := some 1,
    common_words := [(['a'], 2)] }

/-- Witness for `create_stats_guidance_spec` on a report carrying both
    sections. -/
theorem create_stats_guidance_spec_witness :
    (hasLineStart (strL "- Target length:")
        (create_stats_guidance ⟨some basicW, some vocabW⟩) ↔
      (StatisticsReport.mk (some basicW) (some vocabW)).basic.isSome) ∧
    (hasLineStart (strL "- Target sentences:")
        (create_stats_guidance ⟨some basicW, some vocabW⟩) ↔
      (StatisticsReport.mk (some basicW) (some vocabW)).basic.isSome) ∧
    (hasLineStart (strL "- Vocabulary size:")
        (create_stats_guidance ⟨some basicW, some vocabW⟩) ↔
      (StatisticsReport.mk (some basicW) (some vocabW)).vocabulary.isSome) ∧
    (hasLineStart (strL "- Average word length:")
        (create_stats_guidance ⟨some basicW, some vocabW⟩) ↔
      (StatisticsReport.mk (some basicW) (some vocabW)).vocabulary.isSome) ∧
    (hasLineStart (strL "- Common words:")
        (create_stats_guidance ⟨some basicW, some vocabW⟩) ↔
      (StatisticsReport.mk (some basicW) (some vocabW)).vocabulary.isSome) ∧
    (∀ b v, (StatisticsReport.mk (some basicW) (some vocabW)).basic = some b →
      (StatisticsReport.mk (some basicW) (some vocabW)).vocabulary = some v →
      splitNl (create_stats_guidance ⟨some basicW, some vocabW⟩) =
        [[], strL "Statistical properties to match:",
         targetLengthLine b.length_stats, targetSentencesLine b.sentence_stats,
         vocabularySizeLine v, avgWordLengthLine v, commonWordsLine v, []]) :=
  create_stats_guidance_spec ⟨some basicW, some vocabW⟩ (by
    intro v' hv'
    replace hv' : some vocabW = some v' := hv'
    injection hv' with h
    subst h
    decide)

end SynthMed
